import Mathlib

/-!
Verification of the byte-quantity core of `files_stuff` (`bytes_units.py`):
the three unit standards, the string parser `string_to_bytes`, the
`BytesUnit` value type with its constructor, accessors, unit reassignment,
comparison and arithmetic operators.

Modelling conventions: Python ints are `ℤ`/`ℕ`, Python floats are exact
rationals `ℚ` (float rounding is not modelled; all claim inputs are small),
raising an exception is returning `Except.error`.  Python's built-in
`float()`/`int()` string acceptance is modelled by an explicit decimal-literal
grammar (`pyFloatFrac?` below).
-/

instance {ε α : Type} [DecidableEq ε] [DecidableEq α] : DecidableEq (Except ε α) :=
  fun a b =>
    match a, b with
    | .ok x, .ok y =>
      if h : x = y then .isTrue (by rw [h]) else .isFalse (by simp [h])
    | .error e, .error f =>
      if h : e = f then .isTrue (by rw [h]) else .isFalse (by simp [h])
    | .ok _, .error _ => .isFalse (by simp)
    | .error _, .ok _ => .isFalse (by simp)

/-- A bytes-standard class built by the metaclass `MetaBytes`: a base
multiplier `BASE` and the ordered tuple `UNIT_SYMBOLS`.  The metaclass
installs `__eq__` comparing `BASE` and `UNIT_SYMBOLS`, which is exactly
structural equality of this structure. -/
structure Standard where
  BASE : ℕ
  UNIT_SYMBOLS : List String
deriving DecidableEq, Repr

/-- `class SIBytes(metaclass=MetaBytes)`. -/
def SIBytes : Standard :=
  ⟨1000, ["B", "kB", "MB", "GB", "TB", "PB", "EB", "ZB", "YB", "RB", "QB"]⟩

/-- `class IECBytes(metaclass=MetaBytes)`. -/
def IECBytes : Standard :=
  ⟨1024, ["B", "KiB", "MiB", "GiB", "TiB", "PiB", "EiB", "ZiB", "YiB", "RiB", "QiB"]⟩

/-- `class MEMBytes(metaclass=MetaBytes)`. -/
def MEMBytes : Standard :=
  ⟨1024, ["B", "KB", "MB", "GB", "TB"]⟩

/-- Each of the three classes sets `SYMBOL = "B"`. -/
def Standard.SYMBOL (_ : Standard) : String := "B"

/-- Index of a symbol in a symbol list (the enumeration position used by the
metaclass when it fills `EXP_SYM`); missing symbols get the list's length,
a key that the Python code never looks up on a validated instance. -/
def idxOf (u : String) : List String → ℕ
  | [] => 0
  | x :: xs => if x = u then 0 else idxOf u xs + 1

/-- `EXP_SYM[u] = BASE ** index_of(u)`, the exponent value the metaclass
computes for each declared unit symbol. -/
def Standard.expOf (s : Standard) (u : String) : ℕ :=
  s.BASE ^ idxOf u s.UNIT_SYMBOLS

/-- The insertion-ordered `EXP_SYM.items()` association list:
`(symbol, BASE ** index)` for each symbol in declaration order. -/
def Standard.expPairs (s : Standard) : List (String × ℕ) :=
  s.UNIT_SYMBOLS.enum.map fun p => (p.2, s.BASE ^ p.1)

/-- Model of `re.fullmatch('(.+?)(SUF)', string)` for a literal suffix `SUF`
(the unit symbols contain no regex metacharacters): the match succeeds iff
`string` ends with `SUF` preceded by a nonempty remainder that contains no
newline (regex `.` does not match a newline). -/
def properSuffixMatch (suffix string : String) : Bool :=
  let n := string.data.length - suffix.data.length
  decide (suffix.data.length < string.data.length) &&
    (string.data.drop n == suffix.data) &&
    !((string.data.take n).contains '\n')

/-- The first capture group of the match above: the input with the suffix
removed. -/
def stripSuffix (string suffix : String) : String :=
  String.mk (string.data.take (string.data.length - suffix.data.length))

/-- Numeric value of a digit string. -/
def digitsVal (l : List Char) : ℕ :=
  l.foldl (fun a c => 10 * a + (c.toNat - 48)) 0

/-- Model of `re.fullmatch('\d+', s)`: nonempty and all decimal digits. -/
def isIntString (s : String) : Bool :=
  !s.data.isEmpty && s.data.all Char.isDigit

/-- Exponent tail `(e|E)(+|-)?digits` of a float literal, consuming the whole
remainder; `none` if malformed. -/
def parseExpTail : List Char → Option ℤ
  | c :: rest =>
    if c = 'e' ∨ c = 'E' then
      match rest with
      | '+' :: ds =>
        if !ds.isEmpty && ds.all Char.isDigit then some (digitsVal ds) else none
      | '-' :: ds =>
        if !ds.isEmpty && ds.all Char.isDigit then some (-(digitsVal ds : ℤ)) else none
      | ds =>
        if !ds.isEmpty && ds.all Char.isDigit then some (digitsVal ds) else none
    else none
  | [] => none

/-- Unsigned mantissa `digits ('.' digits?)? | '.' digits` of a float literal:
numerator, positive denominator, and the unconsumed tail. -/
def parseMantissa (l : List Char) : Option (ℕ × ℕ × List Char) :=
  let ds := l.takeWhile Char.isDigit
  let rest := l.drop ds.length
  match ds, rest with
  | [], '.' :: r2 =>
    let fs := r2.takeWhile Char.isDigit
    if fs.isEmpty then none
    else some (digitsVal fs, 10 ^ fs.length, r2.drop fs.length)
  | [], _ => none
  | _, '.' :: r2 =>
    let fs := r2.takeWhile Char.isDigit
    some (digitsVal ds * 10 ^ fs.length + digitsVal fs, 10 ^ fs.length, r2.drop fs.length)
  | _, _ => some (digitsVal ds, 1, rest)

/-- Model of Python's built-in `float()` applied to a string, as an exact
fraction (numerator, positive denominator): optional sign, decimal digits with
optional fractional part, optional decimal exponent.  Whitespace trimming,
underscore separators and the `inf`/`nan` spellings are not modelled (no unit
symbol or claim input involves them); float rounding is modelled exactly. -/
def pyFloatFrac? (s : String) : Option (ℤ × ℕ) :=
  let p : ℤ × List Char :=
    match s.data with
    | '+' :: r => (1, r)
    | '-' :: r => (-1, r)
    | l => (1, l)
  match parseMantissa p.2 with
  | none => none
  | some (n, d, rest) =>
    match rest with
    | [] => some (p.1 * n, d)
    | _ =>
      match parseExpTail rest with
      | none => none
      | some e =>
        if 0 ≤ e then some (p.1 * n * 10 ^ e.toNat, d)
        else some (p.1 * n, d * 10 ^ (-e).toNat)

/-- Python `int()` applied to an exact fraction: truncation toward zero. -/
def fracTrunc (n : ℤ) (d : ℕ) : ℤ :=
  if 0 ≤ n then ((n.toNat / d : ℕ) : ℤ) else -((n.natAbs / d : ℕ) : ℤ)

/-- The `ValueError`s that `string_to_bytes` can raise: a suffix matched but
the numeric part is bad (`f'string <{string}>: wrong value: <{numstr}>'`), or
nothing matched and the whole string is not a bare number
(`f'wrong value: <{string}>'`). -/
inductive ParseErr where
  | wrongNum (string numstr : String)
  | wrongValue (string : String)
deriving DecidableEq, Repr

/-- `string_to_bytes.get_bytes`: pick `int` conversion when the numeric part
is all digits, else `float`; multiply by the exponent value and truncate with
`int()`.  A part that converts under neither raises the `wrongNum`
`ValueError`.  (The `OverflowError` re-raise is unreachable under exact
arithmetic.) -/
def get_bytes (string numstr : String) (exp_value : ℕ) : Except ParseErr ℤ :=
  if isIntString numstr then .ok ((digitsVal numstr.data : ℤ) * exp_value)
  else
    match pyFloatFrac? numstr with
    | some (n, d) => .ok (fracTrunc (n * exp_value) d)
    | none => .error (.wrongNum string numstr)

/-- The suffix-search loop of `string_to_bytes`: try each `(symbol, exponent)`
pair in turn, returning the first whose symbol properly suffixes the input,
with its exponent value and the numeric part before the suffix. -/
def findSuffixMatch (string : String) : List (String × ℕ) → Option (String × ℕ × String)
  | [] => none
  | (u, e) :: rest =>
    if properSuffixMatch u string then some (u, e, stripSuffix string u)
    else findSuffixMatch string rest

/-- `string_to_bytes(string, standard, with_suffix=True)`: the loop runs over
`reversed(standard.EXP_SYM.items())`, i.e. the symbol/exponent pairs in
decreasing-exponent order; on a match the numeric part goes through
`get_bytes`; with no match the whole string is parsed as a bare float and
truncated, tagged with the standard's base symbol and `got_suffix = False`. -/
def string_to_bytes (string : String) (standard : Standard) :
    Except ParseErr (ℤ × String × Bool) :=
  match findSuffixMatch string standard.expPairs.reverse with
  | some (suffix, e, numstr) =>
    (get_bytes string numstr e).map fun b => (b, suffix, true)
  | none =>
    match pyFloatFrac? string with
    | some (n, d) => .ok (fracTrunc n d, standard.SYMBOL, false)
    | none => .error (.wrongValue string)

/-- `BytesUnit`: magnitude (`self._value`), unit symbol (`self._symbol`) and
standard class (`self._standard`). -/
structure BytesUnit where
  value : ℚ
  symbol : String
  standard : Standard
deriving DecidableEq, Repr

/-- The `exp` property: `self.standard.EXP_SYM[self.symbol]`. -/
def BytesUnit.exp (p : BytesUnit) : ℕ := p.standard.expOf p.symbol

/-- The `bytes` property (byte-equivalent): `self._value * self.exp`. -/
def BytesUnit.bytes (p : BytesUnit) : ℚ := p.value * (p.exp : ℚ)

/-- The kinds of value `BytesUnit.__init__` accepts: an int, another plain
number (coerced through `float`), or a string. -/
inductive PyVal where
  | int (n : ℤ)
  | float (q : ℚ)
  | str (s : String)

/-- The exceptions the `BytesUnit` methods can raise.  `unknownStandard`,
`unknownUnit`, `wrongValue` and `unknownSymbol` are `ValueError`s;
`doubleUnit` and `cmpTypeError` are `TypeError`s; `zeroDivision` is
`ZeroDivisionError`; `nameError` is `NameError`. -/
inductive PyError where
  | unknownStandard
  | unknownUnit (u : String)
  | doubleUnit (u s : String)
  | wrongValue (s : String)
  | unknownSymbol (s : String)
  | cmpTypeError (op : String)
  | zeroDivision
  | nameError (n : String)
deriving DecidableEq, Repr

/-- `BytesUnit.BYTES_CLASSES = (SIBytes, IECBytes, MEMBytes)`. -/
def BYTES_CLASSES : List Standard := [SIBytes, IECBytes, MEMBytes]

/-- The body of `BytesUnit.__init__` after the standard/unit validity checks:
a string goes through `string_to_bytes`; with no caller unit the detected
symbol is adopted and the byte count rescaled down by its exponent; with a
caller unit a detected suffix is a `TypeError` (double unit indication) and
otherwise the parsed number is taken as already in the caller's unit.  If
`string_to_bytes` raised `ValueError`, fall back to `float(value)` (as a bare
number in the resolved unit), else fail naming the text.  An int is stored
as-is; any other number is stored as its float value.  A still-unresolved
symbol defaults to the standard's base symbol. -/
def bytesUnitValueBranch (value : PyVal) (unit : Option String) (standard : Standard) :
    Except PyError BytesUnit :=
  match value with
  | .str s =>
    match string_to_bytes s standard with
    | .ok (b, sym, gotSuffix) =>
      match unit with
      | none => .ok ⟨(b : ℚ) / (standard.expOf sym : ℚ), sym, standard⟩
      | some u =>
        if gotSuffix then .error (.doubleUnit u s)
        else .ok ⟨(b : ℚ), u, standard⟩
    | .error _ =>
      match pyFloatFrac? s with
      | some (n, d) => .ok ⟨(n : ℚ) / (d : ℚ), unit.getD standard.SYMBOL, standard⟩
      | none => .error (.wrongValue s)
  | .int n => .ok ⟨(n : ℚ), unit.getD standard.SYMBOL, standard⟩
  | .float q => .ok ⟨q, unit.getD standard.SYMBOL, standard⟩

/-- `BytesUnit.__init__(value, unit=None, standard=IECBytes)`: rejects a
standard outside `BYTES_CLASSES` and a unit outside the standard's symbols,
then dispatches on the value as in `bytesUnitValueBranch`. -/
def bytesUnitInit (value : PyVal) (unit : Option String) (standard : Standard) :
    Except PyError BytesUnit :=
  if standard ∉ BYTES_CLASSES then .error .unknownStandard
  else
    match unit with
    | some u =>
      if u ∉ standard.UNIT_SYMBOLS then .error (.unknownUnit u)
      else bytesUnitValueBranch value (some u) standard
    | none => bytesUnitValueBranch value none standard

/-- `BytesUnit.__init__` with the `standard` parameter left at its default,
which the signature fixes to `IECBytes`. -/
def bytesUnitInitDefault (value : PyVal) (unit : Option String) :
    Except PyError BytesUnit :=
  bytesUnitInit value unit IECBytes

/-- The right operand of a binary `BytesUnit` operation: a plain number or
another `BytesUnit`. -/
inductive Operand where
  | num (q : ℚ)
  | bu (b : BytesUnit)

/-- `BytesUnit.__eq__`: `self.standard == other.standard and self.bytes ==
other.bytes`; an `AttributeError`/`TypeError` (a plain-number operand has no
`.standard`) degrades to `False`. -/
def buEq (p : BytesUnit) : Operand → Bool
  | .bu q => decide (p.standard = q.standard) && decide (p.bytes = q.bytes)
  | .num _ => false

/-- `BytesUnit.__ne__`: `not (self == other)`. -/
def buNe (p : BytesUnit) (o : Operand) : Bool := !(buEq p o)

/-- `BytesUnit.__lt__`: `self.standard == other.standard and self.bytes <
other.bytes` — `and` short-circuits, so unequal standards yield `False`; a
plain-number operand raises `AttributeError`, converted to `TypeError`. -/
def buLt (p : BytesUnit) : Operand → Except PyError Bool
  | .bu q => .ok (decide (p.standard = q.standard) && decide (p.bytes < q.bytes))
  | .num _ => .error (.cmpTypeError "lt")

/-- `BytesUnit.__le__`, same shape as `__lt__`. -/
def buLe (p : BytesUnit) : Operand → Except PyError Bool
  | .bu q => .ok (decide (p.standard = q.standard) && decide (p.bytes ≤ q.bytes))
  | .num _ => .error (.cmpTypeError "le")

/-- `BytesUnit.__gt__`, same shape as `__lt__`. -/
def buGt (p : BytesUnit) : Operand → Except PyError Bool
  | .bu q => .ok (decide (p.standard = q.standard) && decide (q.bytes < p.bytes))
  | .num _ => .error (.cmpTypeError "gt")

/-- `BytesUnit.__ge__`, same shape as `__lt__`. -/
def buGe (p : BytesUnit) : Operand → Except PyError Bool
  | .bu q => .ok (decide (p.standard = q.standard) && decide (q.bytes ≤ p.bytes))
  | .num _ => .error (.cmpTypeError "ge")

/-- `BytesUnit.__add__`: a plain number is treated as already in `self`'s
unit; another `BytesUnit` contributes `other.bytes / self.exp`; the result is
built by the constructor with `self`'s symbol and standard.  No standard
comparison occurs anywhere in the arithmetic methods. -/
def buAdd (p : BytesUnit) : Operand → Except PyError BytesUnit
  | .num q => bytesUnitInit (.float (p.value + q)) (some p.symbol) p.standard
  | .bu o =>
    bytesUnitInit (.float (p.value + o.bytes / (p.exp : ℚ))) (some p.symbol) p.standard

/-- `BytesUnit.__sub__`, same dispatch as `__add__`. -/
def buSub (p : BytesUnit) : Operand → Except PyError BytesUnit
  | .num q => bytesUnitInit (.float (p.value - q)) (some p.symbol) p.standard
  | .bu o =>
    bytesUnitInit (.float (p.value - o.bytes / (p.exp : ℚ))) (some p.symbol) p.standard

/-- `BytesUnit.__mul__`, same dispatch as `__add__`. -/
def buMul (p : BytesUnit) : Operand → Except PyError BytesUnit
  | .num q => bytesUnitInit (.float (p.value * q)) (some p.symbol) p.standard
  | .bu o =>
    bytesUnitInit (.float (p.value * (o.bytes / (p.exp : ℚ)))) (some p.symbol) p.standard

/-- `BytesUnit.__truediv__`; a zero divisor raises `ZeroDivisionError`. -/
def buDiv (p : BytesUnit) : Operand → Except PyError BytesUnit
  | .num q =>
    if q = 0 then .error .zeroDivision
    else bytesUnitInit (.float (p.value / q)) (some p.symbol) p.standard
  | .bu o =>
    if o.bytes / (p.exp : ℚ) = 0 then .error .zeroDivision
    else
      bytesUnitInit (.float (p.value / (o.bytes / (p.exp : ℚ)))) (some p.symbol) p.standard

/-- `BytesUnit.__floordiv__`: Python float floor division
`a // b = floor(a / b)`. -/
def buFloordiv (p : BytesUnit) : Operand → Except PyError BytesUnit
  | .num q =>
    if q = 0 then .error .zeroDivision
    else bytesUnitInit (.float (⌊p.value / q⌋ : ℚ)) (some p.symbol) p.standard
  | .bu o =>
    if o.bytes / (p.exp : ℚ) = 0 then .error .zeroDivision
    else
      bytesUnitInit (.float (⌊p.value / (o.bytes / (p.exp : ℚ))⌋ : ℚ))
        (some p.symbol) p.standard

/-- `BytesUnit.__mod__`: Python modulo `a % b = a - b * floor(a / b)`. -/
def buMod (p : BytesUnit) : Operand → Except PyError BytesUnit
  | .num q =>
    if q = 0 then .error .zeroDivision
    else bytesUnitInit (.float (p.value - q * ⌊p.value / q⌋)) (some p.symbol) p.standard
  | .bu o =>
    if o.bytes / (p.exp : ℚ) = 0 then .error .zeroDivision
    else
      bytesUnitInit
        (.float (p.value - (o.bytes / (p.exp : ℚ)) * ⌊p.value / (o.bytes / (p.exp : ℚ))⌋))
        (some p.symbol) p.standard

/-- The `symbol` property setter: reject a symbol outside the standard's
symbols, otherwise (if it differs from the current one) rescale the magnitude
to `self.bytes / EXP_SYM[sym]`; setting the current symbol is a no-op. -/
def setSymbol (p : BytesUnit) (sym : String) : Except PyError BytesUnit :=
  if sym ∉ p.standard.UNIT_SYMBOLS then .error (.unknownSymbol sym)
  else if sym ≠ p.symbol then
    .ok ⟨p.bytes / (p.standard.expOf sym : ℚ), sym, p.standard⟩
  else .ok p

/-- Module-level names that the imports of `bytes_units.py` bind:
`from decimal import Decimal`, `from math import trunc`, `import operator`,
`import re`.  No statement binds the name `math` at module level (the
`import math` inside `format_num` is local to that function). -/
def importedModuleNames : List String := ["Decimal", "trunc", "operator", "re"]

/-- Resolution of a module-global name used in a method body: a name not
bound in the module raises `NameError`. -/
def resolveGlobal (n : String) : Except PyError String :=
  if n ∈ importedModuleNames then .ok n else .error (.nameError n)

/-- `BytesUnit.__floor__`: `BytesUnit(math.floor(self.value), self.symbol,
self.standard)`.  The global name `math` is resolved first; were it bound,
the result would be the constructor applied to the floored magnitude. -/
def buFloor (p : BytesUnit) : Except PyError BytesUnit :=
  match resolveGlobal "math" with
  | .error e => .error e
  | .ok _ => bytesUnitInit (.int ⌊p.value⌋) (some p.symbol) p.standard

/-- `BytesUnit.__ceil__`: `BytesUnit(math.ceil(self.value), self.symbol,
self.standard)`, with the same unbound global `math`. -/
def buCeil (p : BytesUnit) : Except PyError BytesUnit :=
  match resolveGlobal "math" with
  | .error e => .error e
  | .ok _ => bytesUnitInit (.int ⌈p.value⌉) (some p.symbol) p.standard

/-- `Except.isOk` as a plain function (whether an operation succeeded). -/
def exceptIsOk {ε α : Type} : Except ε α → Bool
  | .ok _ => true
  | .error _ => false

/- Helper lemmas shared by the claim theorems. -/

theorem mem_BYTES_CLASSES_iff (s : Standard) :
    s ∈ BYTES_CLASSES ↔ s = SIBytes ∨ s = IECBytes ∨ s = MEMBytes := by
  simp [BYTES_CLASSES]

theorem base_ne_zero_of_mem (s : Standard) (h : s ∈ BYTES_CLASSES) : s.BASE ≠ 0 := by
  rcases (mem_BYTES_CLASSES_iff s).1 h with h | h | h <;> subst h <;> decide

theorem expOf_ne_zero (s : Standard) (u : String) (h : s ∈ BYTES_CLASSES) :
    ((s.expOf u : ℕ) : ℚ) ≠ 0 := by
  have hb : s.expOf u ≠ 0 := pow_ne_zero _ (base_ne_zero_of_mem s h)
  exact_mod_cast hb

theorem expOf_base_symbol (s : Standard) (h : s ∈ BYTES_CLASSES) :
    s.expOf "B" = 1 := by
  rcases (mem_BYTES_CLASSES_iff s).1 h with h | h | h <;> subst h <;> decide

theorem expOf_SI_kB : SIBytes.expOf "kB" = 1000 := by decide

theorem expOf_MEM_KB : MEMBytes.expOf "KB" = 1024 := by decide

theorem expOf_IEC_B : IECBytes.expOf "B" = 1 := by decide

theorem expOf_IEC_KiB : IECBytes.expOf "KiB" = 1024 := by decide

theorem expOf_IEC_GiB : IECBytes.expOf "GiB" = 1024 ^ 3 := by decide

theorem expOf_IEC_TiB : IECBytes.expOf "TiB" = 1024 ^ 4 := by decide

theorem initFloatOk (x : ℚ) (u : String) (standard : Standard)
    (h1 : standard ∈ BYTES_CLASSES) (h2 : u ∈ standard.UNIT_SYMBOLS) :
    bytesUnitInit (.float x) (some u) standard = .ok ⟨x, u, standard⟩ := by
  simp [bytesUnitInit, h1, h2, bytesUnitValueBranch]

theorem initFloatNoneOk (x : ℚ) (standard : Standard) (h1 : standard ∈ BYTES_CLASSES) :
    bytesUnitInit (.float x) none standard = .ok ⟨x, "B", standard⟩ := by
  simp [bytesUnitInit, h1, bytesUnitValueBranch, Standard.SYMBOL]

theorem bytesUnitValueBranch_standard (v : PyVal) (u : Option String) (st : Standard)
    (r : BytesUnit) (h : bytesUnitValueBranch v u st = .ok r) : r.standard = st := by
  unfold bytesUnitValueBranch at h
  repeat' split at h
  all_goals cases h
  all_goals rfl

/-- C1 (counterexample): comparing two `BytesUnit`s whose standards are not
equal does not raise: `BytesUnit(1, "KB", MEMBytes) < BytesUnit(2, "kB",
SIBytes)` returns the boolean `False`, and likewise `<=`, `>`, `>=`.  (The
claim's literal right operand `BytesUnit(2, "KB", SIBytes)` cannot even be
constructed, since `"KB"` is not an SI symbol.) -/
theorem C1_counterexample :
    bytesUnitInit (.int 1) (some "KB") MEMBytes = .ok ⟨1, "KB", MEMBytes⟩ ∧
    bytesUnitInit (.int 2) (some "kB") SIBytes = .ok ⟨2, "kB", SIBytes⟩ ∧
    bytesUnitInit (.int 2) (some "KB") SIBytes = .error (.unknownUnit "KB") ∧
    buLt ⟨1, "KB", MEMBytes⟩ (.bu ⟨2, "kB", SIBytes⟩) = .ok false ∧
    buLe ⟨1, "KB", MEMBytes⟩ (.bu ⟨2, "kB", SIBytes⟩) = .ok false ∧
    buGt ⟨1, "KB", MEMBytes⟩ (.bu ⟨2, "kB", SIBytes⟩) = .ok false ∧
    buGe ⟨1, "KB", MEMBytes⟩ (.bu ⟨2, "kB", SIBytes⟩) = .ok false := by
  decide

/-- C1 (amended): for every two `BytesUnit`s whose standards are not equal,
each ordering comparison `<`, `<=`, `>`, `>=` evaluates to the boolean
`False` without raising — the standard-equality conjunct short-circuits the
`and` in `__lt__`/`__le__`/`__gt__`/`__ge__`; `TypeError` is reserved for
operands that are not quantities at all. -/
theorem C1_amended (p q : BytesUnit) (h : p.standard ≠ q.standard) :
    buLt p (.bu q) = .ok false ∧ buLe p (.bu q) = .ok false ∧
    buGt p (.bu q) = .ok false ∧ buGe p (.bu q) = .ok false := by
  simp [buLt, buLe, buGt, buGe, h]

/-- C1 (witness): the amended statement at the counterexample's operands. -/
theorem C1_amended_witness :
    buLt ⟨1, "KB", MEMBytes⟩ (.bu ⟨2, "kB", SIBytes⟩) = .ok false ∧
    buLe ⟨1, "KB", MEMBytes⟩ (.bu ⟨2, "kB", SIBytes⟩) = .ok false ∧
    buGt ⟨1, "KB", MEMBytes⟩ (.bu ⟨2, "kB", SIBytes⟩) = .ok false ∧
    buGe ⟨1, "KB", MEMBytes⟩ (.bu ⟨2, "kB", SIBytes⟩) = .ok false :=
  C1_amended ⟨1, "KB", MEMBytes⟩ ⟨2, "kB", SIBytes⟩ (by decide)

/-- C2 (counterexample): adding two `BytesUnit`s of different standards does
not raise a type error; the right operand is silently converted through its
byte-equivalent (1 kB = 1000 bytes) into the left operand's exponent (1024),
yielding `(1 + 1000/1024) KB` under `MEMBytes`. -/
theorem C2_counterexample :
    bytesUnitInit (.int 1) (some "KB") MEMBytes = .ok ⟨1, "KB", MEMBytes⟩ ∧
    bytesUnitInit (.int 1) (some "kB") SIBytes = .ok ⟨1, "kB", SIBytes⟩ ∧
    buAdd ⟨1, "KB", MEMBytes⟩ (.bu ⟨1, "kB", SIBytes⟩) =
      .ok ⟨253/128, "KB", MEMBytes⟩ := by
  refine ⟨by decide, by decide, ?_⟩
  simp only [buAdd, BytesUnit.bytes, BytesUnit.exp]
  rw [initFloatOk _ "KB" MEMBytes (by decide) (by decide)]
  norm_num [Except.ok.injEq, BytesUnit.mk.injEq, expOf_SI_kB, expOf_MEM_KB]

/-- C2 (amended): the binary arithmetic methods perform no standard check at
all: for any two `BytesUnit`s, whatever their standards, `+`, `-`, `*`, `/`,
`//` and `%` succeed (the division family provided the right operand's
byte-equivalent is nonzero, else `ZeroDivisionError`), returning a value in
the left operand's symbol and standard with the right operand rescaled via
`other.bytes / self.exp`.  (`**` follows the same unchecked dispatch; its
float powers are not rational and are left unmodelled.) -/
theorem C2_amended (p q : BytesUnit)
    (h1 : p.standard ∈ BYTES_CLASSES) (h2 : p.symbol ∈ p.standard.UNIT_SYMBOLS)
    (hq : q.bytes ≠ 0) :
    buAdd p (.bu q) = .ok ⟨p.value + q.bytes / (p.exp : ℚ), p.symbol, p.standard⟩ ∧
    buSub p (.bu q) = .ok ⟨p.value - q.bytes / (p.exp : ℚ), p.symbol, p.standard⟩ ∧
    buMul p (.bu q) = .ok ⟨p.value * (q.bytes / (p.exp : ℚ)), p.symbol, p.standard⟩ ∧
    buDiv p (.bu q) = .ok ⟨p.value / (q.bytes / (p.exp : ℚ)), p.symbol, p.standard⟩ ∧
    buFloordiv p (.bu q) =
      .ok ⟨(⌊p.value / (q.bytes / (p.exp : ℚ))⌋ : ℚ), p.symbol, p.standard⟩ ∧
    buMod p (.bu q) =
      .ok ⟨p.value - (q.bytes / (p.exp : ℚ)) * ⌊p.value / (q.bytes / (p.exp : ℚ))⌋,
        p.symbol, p.standard⟩ := by
  have hexp : ((p.exp : ℕ) : ℚ) ≠ 0 := expOf_ne_zero p.standard p.symbol h1
  have hd : q.bytes / (p.exp : ℚ) ≠ 0 := div_ne_zero hq hexp
  refine ⟨?_, ?_, ?_, ?_, ?_, ?_⟩ <;>
    simp [buAdd, buSub, buMul, buDiv, buFloordiv, buMod, hd, initFloatOk, h1, h2]

/-- C2 (witness): the amended statement at `3 KiB` (IEC) and `1 kB` (SI):
the rescaled right operand is `1000/1024 = 125/128` of a KiB. -/
theorem C2_amended_witness :
    buAdd ⟨3, "KiB", IECBytes⟩ (.bu ⟨1, "kB", SIBytes⟩) =
      .ok ⟨509/128, "KiB", IECBytes⟩ ∧
    buSub ⟨3, "KiB", IECBytes⟩ (.bu ⟨1, "kB", SIBytes⟩) =
      .ok ⟨259/128, "KiB", IECBytes⟩ ∧
    buMul ⟨3, "KiB", IECBytes⟩ (.bu ⟨1, "kB", SIBytes⟩) =
      .ok ⟨375/128, "KiB", IECBytes⟩ ∧
    buDiv ⟨3, "KiB", IECBytes⟩ (.bu ⟨1, "kB", SIBytes⟩) =
      .ok ⟨384/125, "KiB", IECBytes⟩ ∧
    buFloordiv ⟨3, "KiB", IECBytes⟩ (.bu ⟨1, "kB", SIBytes⟩) =
      .ok ⟨3, "KiB", IECBytes⟩ ∧
    buMod ⟨3, "KiB", IECBytes⟩ (.bu ⟨1, "kB", SIBytes⟩) =
      .ok ⟨9/128, "KiB", IECBytes⟩ := by
  have h := C2_amended ⟨3, "KiB", IECBytes⟩ ⟨1, "kB", SIBytes⟩ (by decide) (by decide)
    (by norm_num [BytesUnit.bytes, BytesUnit.exp, expOf_SI_kB])
  have hb : (⟨1, "kB", SIBytes⟩ : BytesUnit).bytes = 1000 := by
    norm_num [BytesUnit.bytes, BytesUnit.exp, expOf_SI_kB]
  have he : ((⟨3, "KiB", IECBytes⟩ : BytesUnit).exp : ℚ) = 1024 := by
    norm_num [BytesUnit.exp, expOf_IEC_KiB]
  rw [hb, he] at h
  have hfl : (⌊(3 : ℚ) / (1000 / 1024)⌋ : ℤ) = 3 := by
    rw [Int.floor_eq_iff]
    norm_num
  rw [hfl] at h
  obtain ⟨e1, e2, e3, e4, e5, e6⟩ := h
  refine ⟨?_, ?_, ?_, ?_, ?_, ?_⟩
  · rw [e1]; norm_num
  · rw [e2]; norm_num
  · rw [e3]; norm_num
  · rw [e4]; norm_num
  · rw [e5]; norm_num
  · rw [e6]; norm_num

/-- C3 (code bug): `__floor__` and `__ceil__` call `math.floor`/`math.ceil`,
but the module imports only `trunc` from `math` and never binds the global
name `math`; every call therefore raises `NameError` instead of returning the
floored/ceiled quantity that the class docstring advertises. -/
theorem C3_floor_ceil_name_error :
    "math" ∉ importedModuleNames ∧
    bytesUnitInit (.float (3/2)) none SIBytes = .ok ⟨3/2, "B", SIBytes⟩ ∧
    buFloor ⟨3/2, "B", SIBytes⟩ = .error (.nameError "math") ∧
    buCeil ⟨3/2, "B", SIBytes⟩ = .error (.nameError "math") ∧
    (∀ p : BytesUnit, buFloor p = .error (.nameError "math") ∧
      buCeil p = .error (.nameError "math")) := by
  refine ⟨by decide, initFloatNoneOk _ _ (by decide), ?_, ?_, fun p => ⟨?_, ?_⟩⟩ <;>
    simp [buFloor, buCeil, resolveGlobal, importedModuleNames]

/-- C4: constructing from a text that parses with a unit suffix while also
passing an explicit (valid) unit raises the double-unit `TypeError`, for
every such text, every unit of the standard, and every registered
standard. -/
theorem C4_double_unit (s u : String) (standard : Standard) (b : ℤ) (sym : String)
    (h1 : standard ∈ BYTES_CLASSES) (h2 : u ∈ standard.UNIT_SYMBOLS)
    (h3 : string_to_bytes s standard = .ok (b, sym, true)) :
    bytesUnitInit (.str s) (some u) standard = .error (.doubleUnit u s) := by
  simp [bytesUnitInit, h1, h2, bytesUnitValueBranch, h3]

/-- C4 (witness): `BytesUnit("5MiB", unit="GiB", standard=IECBytes)` fails
with the double-unit error. -/
theorem C4_witness :
    bytesUnitInit (.str "5MiB") (some "GiB") IECBytes =
      .error (.doubleUnit "GiB" "5MiB") :=
  C4_double_unit "5MiB" "GiB" IECBytes 5242880 "MiB" (by decide) (by decide) (by decide)

/-- C5: reassigning the unit symbol rejects any symbol outside the standard's
unit symbols (the value is untouched — the functional model returns an error
before any update); for a known symbol it succeeds, the resulting magnitude
is `byteEquivalent / exponentOf(newSymbol)`, the symbol and standard are the
new symbol and the old standard, and the byte-equivalent is unchanged;
setting the current symbol returns the value unchanged (idempotence). -/
theorem C5_setSymbol (p : BytesUnit) (sym : String) (h1 : p.standard ∈ BYTES_CLASSES) :
    (sym ∉ p.standard.UNIT_SYMBOLS → setSymbol p sym = .error (.unknownSymbol sym)) ∧
    (sym ∈ p.standard.UNIT_SYMBOLS →
      exceptIsOk (setSymbol p sym) = true ∧
      (∀ r, setSymbol p sym = .ok r →
        r.value = p.bytes / ((p.standard.expOf sym : ℕ) : ℚ) ∧ r.symbol = sym ∧
        r.standard = p.standard ∧ r.bytes = p.bytes)) ∧
    (sym = p.symbol → sym ∈ p.standard.UNIT_SYMBOLS → setSymbol p sym = .ok p) := by
  have hexp : ((p.standard.expOf sym : ℕ) : ℚ) ≠ 0 := expOf_ne_zero p.standard sym h1
  refine ⟨fun h => by simp [setSymbol, h], fun h => ⟨?_, ?_⟩, fun hs h => ?_⟩
  · by_cases hs : sym = p.symbol
    · subst hs
      simp [setSymbol, h, exceptIsOk]
    · simp [setSymbol, h, hs, exceptIsOk]
  · intro r hr
    unfold setSymbol at hr
    by_cases hs : sym = p.symbol
    · subst hs
      rw [if_neg (by simpa using h), if_neg (by simp)] at hr
      injection hr with hr
      subst hr
      refine ⟨?_, rfl, rfl, rfl⟩
      simp only [BytesUnit.bytes, BytesUnit.exp]
      exact (mul_div_cancel_right₀ p.value hexp).symm
    · rw [if_neg (by simpa using h), if_pos hs] at hr
      injection hr with hr
      subst hr
      refine ⟨rfl, rfl, rfl, ?_⟩
      simp only [BytesUnit.bytes, BytesUnit.exp]
      exact div_mul_cancel₀ _ hexp
  · subst hs
    simp [setSymbol, h]

/-- C5 (witness): `BytesUnit(2, "TiB")` reassigned to `"GiB"` becomes
`2048 GiB` with an unchanged byte-equivalent; reassigning `"TiB"` is a no-op;
an unknown symbol is rejected. -/
theorem C5_witness :
    setSymbol ⟨2, "TiB", IECBytes⟩ "GiB" = .ok ⟨2048, "GiB", IECBytes⟩ ∧
    (2048 : ℚ) = BytesUnit.bytes ⟨2, "TiB", IECBytes⟩ / ((IECBytes.expOf "GiB" : ℕ) : ℚ) ∧
    BytesUnit.bytes ⟨2048, "GiB", IECBytes⟩ = BytesUnit.bytes ⟨2, "TiB", IECBytes⟩ ∧
    setSymbol ⟨2, "TiB", IECBytes⟩ "TiB" = .ok ⟨2, "TiB", IECBytes⟩ ∧
    setSymbol ⟨2, "TiB", IECBytes⟩ "zz" = .error (.unknownSymbol "zz") := by
  have hok : setSymbol ⟨2, "TiB", IECBytes⟩ "GiB" = .ok ⟨2048, "GiB", IECBytes⟩ := by
    unfold setSymbol
    rw [if_neg (by decide), if_pos (by decide)]
    norm_num [BytesUnit.bytes, BytesUnit.exp, expOf_IEC_TiB, expOf_IEC_GiB,
      BytesUnit.mk.injEq]
  have h := (C5_setSymbol ⟨2, "TiB", IECBytes⟩ "GiB" (by decide)).2.1 (by decide)
  have hval := (h.2 ⟨2048, "GiB", IECBytes⟩ hok).1
  have hbytes := (h.2 ⟨2048, "GiB", IECBytes⟩ hok).2.2.2
  have hid := (C5_setSymbol ⟨2, "TiB", IECBytes⟩ "TiB" (by decide)).2.2 rfl (by decide)
  have hrej := (C5_setSymbol ⟨2, "TiB", IECBytes⟩ "zz" (by decide)).1 (by decide)
  exact ⟨hok, hval, hbytes, hid, hrej⟩

/-- C6: `==` between two `BytesUnit`s holds iff the standards are equal and
the byte-equivalents are equal (raw magnitudes are never compared):
`1 KiB == 1024 B` under IEC; values of different standards are never equal,
`==` returning `False` and `!=` returning `True` without raising; against a
plain number `==` degrades to `False` and `!=` to `True`. -/
theorem C6_eq_semantics :
    (∀ p q : BytesUnit,
      (buEq p (.bu q) = true) ↔ (p.standard = q.standard ∧ p.bytes = q.bytes)) ∧
    (∀ p : BytesUnit, ∀ o : Operand, buNe p o = !(buEq p o)) ∧
    bytesUnitInit (.int 1) (some "KiB") IECBytes = .ok ⟨1, "KiB", IECBytes⟩ ∧
    bytesUnitInit (.int 1024) (some "B") IECBytes = .ok ⟨1024, "B", IECBytes⟩ ∧
    buEq ⟨1, "KiB", IECBytes⟩ (.bu ⟨1024, "B", IECBytes⟩) = true ∧
    bytesUnitInit (.int 1) (some "kB") SIBytes = .ok ⟨1, "kB", SIBytes⟩ ∧
    buEq ⟨1, "kB", SIBytes⟩ (.bu ⟨1, "KiB", IECBytes⟩) = false ∧
    buNe ⟨1, "kB", SIBytes⟩ (.bu ⟨1, "KiB", IECBytes⟩) = true ∧
    (∀ p : BytesUnit, ∀ x : ℚ, buEq p (.num x) = false ∧ buNe p (.num x) = true) := by
  refine ⟨fun p q => ?_, fun p o => rfl, by decide, by decide, ?_, by decide, by decide,
    by decide, fun p x => ⟨rfl, rfl⟩⟩
  · simp [buEq, Bool.and_eq_true, decide_eq_true_eq]
  · simp only [buEq, Bool.and_eq_true, decide_eq_true_eq, BytesUnit.bytes, BytesUnit.exp,
      expOf_IEC_KiB, expOf_IEC_B]
    exact ⟨by trivial, by norm_num⟩

/-- C7: the suffix loop iterates the symbol/exponent pairs of each registered
standard in strictly decreasing exponent order, so `"1KiB"` under IEC is
attributed to `"KiB"` (exponent 1024) and not to its textual suffix `"B"`
(exponent 1), which also matches; the parse reports the suffix, a byte count
of exactly 1024, and `got_suffix = True`. -/
theorem C7_suffix_order :
    (SIBytes.expPairs.reverse.map Prod.snd).Pairwise (· > ·) ∧
    (IECBytes.expPairs.reverse.map Prod.snd).Pairwise (· > ·) ∧
    (MEMBytes.expPairs.reverse.map Prod.snd).Pairwise (· > ·) ∧
    findSuffixMatch "1KiB" IECBytes.expPairs.reverse = some ("KiB", 1024, "1") ∧
    string_to_bytes "1KiB" IECBytes = .ok (1024, "KiB", true) ∧
    properSuffixMatch "B" "1KiB" = true ∧
    IECBytes.expOf "B" < IECBytes.expOf "KiB" := by
  decide

/-- C8: when no unit suffix of the standard matches, the whole text is parsed
as a bare float and truncated to an integer byte count in the base unit with
`got_suffix = False`; the constructor then yields that byte count under unit
`"B"`; a text that is also not float-compatible is a `ValueError` naming the
input, from the parser and from the constructor alike. -/
theorem C8_bare_number (s : String) (standard : Standard) (n : ℤ) (d : ℕ)
    (h1 : standard ∈ BYTES_CLASSES)
    (h2 : findSuffixMatch s standard.expPairs.reverse = none) :
    (pyFloatFrac? s = some (n, d) →
      string_to_bytes s standard = .ok (fracTrunc n d, "B", false) ∧
      bytesUnitInit (.str s) none standard = .ok ⟨((fracTrunc n d : ℤ) : ℚ), "B", standard⟩) ∧
    (pyFloatFrac? s = none →
      string_to_bytes s standard = .error (.wrongValue s) ∧
      bytesUnitInit (.str s) none standard = .error (.wrongValue s)) := by
  have hB : ((standard.expOf "B" : ℕ) : ℚ) = 1 := by
    rw [expOf_base_symbol standard h1]; norm_num
  constructor
  · intro hf
    have hs : string_to_bytes s standard = .ok (fracTrunc n d, "B", false) := by
      simp [string_to_bytes, h2, hf, Standard.SYMBOL]
    refine ⟨hs, ?_⟩
    simp [bytesUnitInit, h1, bytesUnitValueBranch, hs, hB]
  · intro hf
    have hs : string_to_bytes s standard = .error (.wrongValue s) := by
      simp [string_to_bytes, h2, hf]
    refine ⟨hs, ?_⟩
    simp [bytesUnitInit, h1, bytesUnitValueBranch, hs, hf]

/-- C8 (witness): `"1024"` parses suffix-free to 1024 bytes and constructs as
`1024 B` under IEC; `"2.5"` truncates to 2; `"i8"` fails naming the input. -/
theorem C8_witness :
    (string_to_bytes "1024" IECBytes = .ok (1024, "B", false) ∧
      bytesUnitInit (.str "1024") none IECBytes = .ok ⟨(1024 : ℚ), "B", IECBytes⟩) ∧
    string_to_bytes "2.5" IECBytes = .ok (2, "B", false) ∧
    (string_to_bytes "i8" IECBytes = .error (.wrongValue "i8") ∧
      bytesUnitInit (.str "i8") none IECBytes = .error (.wrongValue "i8")) := by
  have hA := (C8_bare_number "1024" IECBytes 1024 1 (by decide) (by decide)).1 (by decide)
  have hB2 := ((C8_bare_number "2.5" IECBytes 25 10 (by decide) (by decide)).1 (by decide)).1
  have hC := (C8_bare_number "i8" IECBytes 0 1 (by decide) (by decide)).2 (by decide)
  rw [show fracTrunc 1024 1 = 1024 from by decide] at hA
  rw [show fracTrunc 25 10 = 2 from by decide] at hB2
  rw [show ((1024 : ℤ) : ℚ) = (1024 : ℚ) from by norm_num] at hA
  exact ⟨hA, hB2, hC⟩

/-- C9: with the `standard` argument omitted the constructor uses its default
`IECBytes` (base 1024), so any successfully constructed value carries the IEC
standard, and `BytesUnit(2, "TiB")` is a well-formed IEC quantity. -/
theorem C9_default_standard :
    (∀ v u r, bytesUnitInitDefault v u = .ok r → r.standard = IECBytes) ∧
    bytesUnitInitDefault (.int 2) (some "TiB") = .ok ⟨2, "TiB", IECBytes⟩ := by
  constructor
  · intro v u r h
    unfold bytesUnitInitDefault bytesUnitInit at h
    rw [if_neg (by decide)] at h
    rcases u with _ | u'
    · exact bytesUnitValueBranch_standard _ _ _ _ h
    · dsimp only at h
      by_cases hu : u' ∈ IECBytes.UNIT_SYMBOLS
      · rw [if_neg (by simpa using hu)] at h
        exact bytesUnitValueBranch_standard _ _ _ _ h
      · rw [if_pos (by simpa using hu)] at h
        cases h
  · decide

/-- C9 (witness): the default-standard construction of `BytesUnit(2, "TiB")`
yields a value whose standard is `IECBytes`. -/
theorem C9_witness : (⟨2, "TiB", IECBytes⟩ : BytesUnit).standard = IECBytes :=
  C9_default_standard.1 (.int 2) (some "TiB") ⟨2, "TiB", IECBytes⟩ (by decide)

/-- C10: for every registered standard, a string consisting of a unit symbol
alone never parses as a quantity of one unit: the parse fails (for `"KiB"`
the smaller suffix `"B"` matches but the leftover prefix `"Ki"` is rejected
as non-numeric) and the constructor fails with a `ValueError` naming the
input. -/
theorem C10_symbol_alone_fails (standard : Standard) (u : String)
    (h1 : standard ∈ BYTES_CLASSES) (h2 : u ∈ standard.UNIT_SYMBOLS) :
    exceptIsOk (string_to_bytes u standard) = false ∧
    bytesUnitInit (.str u) none standard = .error (.wrongValue u) ∧
    string_to_bytes "KiB" IECBytes = .error (.wrongNum "KiB" "Ki") := by
  have key : ∀ s ∈ BYTES_CLASSES, ∀ x ∈ s.UNIT_SYMBOLS,
      exceptIsOk (string_to_bytes x s) = false ∧
      bytesUnitInit (.str x) none s = .error (.wrongValue x) := by decide
  obtain ⟨ha, hb⟩ := key standard h1 u h2
  exact ⟨ha, hb, by decide⟩

/-- C10 (witness): the statement at the standard `IECBytes` and its symbol
`"KiB"`. -/
theorem C10_witness :
    exceptIsOk (string_to_bytes "KiB" IECBytes) = false ∧
    bytesUnitInit (.str "KiB") none IECBytes = .error (.wrongValue "KiB") ∧
    string_to_bytes "KiB" IECBytes = .error (.wrongNum "KiB" "Ki") :=
  C10_symbol_alone_fails IECBytes "KiB" (by decide) (by decide)
